import Mathlib

/-!
Shallow embedding of the tic-tac-toe core (alnah/tic-tac-toe) in Lean 4.

The canonical modules embedded here are the ones the claims cite:
`src/src/models/board.js`, `src/src/models/player.js`, `src/src/models/tie.js`,
`src/src/models/game.js`, `src/src/utils/validation.js`,
`src/src/utils/observer.js`.  The repository contains several iterations of
the same modules; where a cited module has a broken named import
(`models/player.js` imports `validateId`, which `validation.js` does not
export; `models/tie.js` imports the non-exported `validateIsPositiveInteger`)
the embedding follows the iteration whose imports resolve against
`validation.js` (`src/unnamed/part_000` for the player, which uses
`validatePlayerId`), as noted on the individual definitions.

Modelling conventions:
- JavaScript exceptions (`throw new Error(msg)`) become `Except String`,
  carrying the exact message string thrown by the source.
- Cell contents and player symbols are modelled as `Char`; the source's
  `validateSymbol` accepts exactly the strings of length one, so on this
  representation it always succeeds.
- JavaScript strings used as player names are modelled as `List Char`
  (`.length` is the length, `.slice(0, 12)` is `List.take 12`).
- Indices are `Int` (the DOM layer produces integer row/col values), so the
  `typeof index !== "number"` / `Number.isInteger` branches of
  `validateIndex` never fire; only the range check remains.
- Out-of-bounds list access (JS `undefined`) is modelled with the sentinel
  character `'?'` via `List.getD`; it is unreachable on well-formed 3×3
  grids, which every theorem below assumes or constructs.
-/

instance {ε α : Type} [DecidableEq ε] [DecidableEq α] : DecidableEq (Except ε α)
  | .error e, .error f => decidable_of_iff (e = f) (by simp)
  | .error _, .ok _ => isFalse (by simp)
  | .ok _, .error _ => isFalse (by simp)
  | .ok a, .ok b => decidable_of_iff (a = b) (by simp)

/-- The board-module constant `SIZE` from `board.js`: the default (and only
valid) board size. -/
def SIZE : Int := 3

/-- The board-module constant `FILLER` from `board.js`: the symbol denoting
an empty cell. -/
def FILLER : Char := '_'

/-- Error message thrown by `validateIndex` in `validation.js`. -/
def indexErrMsg : String := "Index must be a positive integer within the board size."

/-- Embeds `validateIndex` from `validation.js`: an index must be an integer in
`[0, size)`.  The `typeof` and `Number.isInteger` branches cannot fire on the
`Int` representation, leaving the range check. -/
def validateIndex (index : Int) (size : Int) : Except String Int :=
  if index < 0 ∨ size ≤ index then .error indexErrMsg else .ok index

/-- Embeds `validatePlayerId` from `validation.js` (`validateIsPositiveInteger
"Player id"`): a number that is non-negative and integral.  On `Int` the
`typeof` branch never fires and `number % 1 === 0` always holds. -/
def validatePlayerId (n : Int) : Except String Int :=
  if n < 0 then .error "Player id must be a positive number" else .ok n

/-- Embeds `validateScore` from `validation.js` (`validateIsPositiveInteger
"Player score"`). -/
def validateScore (n : Int) : Except String Int :=
  if n < 0 then .error "Player score must be a positive number" else .ok n

/-- A JavaScript value passed where a player name is expected: either a
string or some non-string value (in the source, `playTurn`'s no-op branch
passes the whole game-state object as the `namePlayer1` argument of
`makeGame`). -/
inductive JsVal where
  | str (s : List Char)
  | obj
deriving DecidableEq, Repr

/-- Embeds `validateName` from `validation.js`: the argument must be a string of
length 1 to 12. -/
def validateName : JsVal → Except String (List Char)
  | .str s =>
    if s.length < 1 then .error "Player name must be at least 1 character long"
    else if 12 < s.length then .error "Player name must be at most 12 characters long"
    else .ok s
  | .obj => .error "Player name must be a string"

/-- A board cell coordinate, as the `{ row, col }` records produced by
`getWinCells` in `board.js`. -/
structure Cell where
  row : Int
  col : Int
deriving DecidableEq, Repr

/-- The state owned by the `makeBoard` closure in `board.js`: the grid and
the filler symbol.  `validateSize` admits only `3`, so the embedding fixes
`size = SIZE = 3` instead of carrying the field. -/
structure Board where
  grid : List (List Char)
  filler : Char
deriving DecidableEq, Repr

/-- Embeds `makeGrid SIZE FILLER` from `board.js`: the default, fully-empty board
(`makeBoard()` with no argument). -/
def defaultBoard : Board :=
  { grid := List.replicate 3 (List.replicate 3 FILLER), filler := FILLER }

/-- Sentinel for JS `undefined` from an out-of-bounds array access;
unreachable on well-formed 3×3 grids. -/
def undefCell : Char := '?'

/-- A well-formed grid: 3 rows of 3 cells, as every grid reachable from
`makeBoard()` is. -/
def Board.WF (b : Board) : Prop :=
  b.grid.length = 3 ∧ ∀ r ∈ b.grid, r.length = 3

instance : DecidablePred Board.WF := fun b => by
  unfold Board.WF; infer_instance

/-- Embeds `getRow` from `board.js`: `grid[validateIndex(row, SIZE)]`. -/
def Board.getRowLine (b : Board) (row : Int) : Except String (List Char) := do
  let r ← validateIndex row SIZE
  pure (b.grid.getD r.toNat [])

/-- Embeds `getCol` from `board.js`: `grid.map(r => r[validateIndex(col, SIZE)])`
(the index is validated inside the `map`, once per row). -/
def Board.getColLine (b : Board) (col : Int) : Except String (List Char) :=
  b.grid.mapM (fun r => do
    let c ← validateIndex col SIZE
    pure (r.getD c.toNat undefCell))

/-- Embeds `getDiag` from `board.js`: `grid.map((r, i) => r[i])` (no validation). -/
def Board.getDiagLine (b : Board) : List Char :=
  b.grid.enum.map (fun p => p.2.getD p.1 undefCell)

/-- Embeds `getAntiDiag` from `board.js`: `grid.map((r, i) => r[size - 1 - i])`;
with `size = 3` the accessed column is `2 - i` (for rows `i ≤ 2`, the only
ones a well-formed grid has). -/
def Board.getAntiDiagLine (b : Board) : List Char :=
  b.grid.enum.map (fun p => p.2.getD (2 - p.1) undefCell)

/-- Embeds `getCell` from `board.js`: validates both indices then reads
`grid[row][col]`. -/
def Board.getCell (b : Board) (row col : Int) : Except String Char := do
  _ ← validateIndex row SIZE
  _ ← validateIndex col SIZE
  pure ((b.grid.getD row.toNat []).getD col.toNat undefCell)

/-- Embeds `setCell` from `board.js`: validates both indices, deep-copies the grid,
writes `symbol` only when the target cell holds the filler, and rebuilds the
board (`makeBoard({...board, grid})`, whose size/filler re-validation always
passes since neither changed). -/
def Board.setCell (b : Board) (row col : Int) (symbol : Char) : Except String Board := do
  _ ← validateIndex row SIZE
  _ ← validateIndex col SIZE
  let oldRow := b.grid.getD row.toNat []
  let updatedGrid :=
    if oldRow.getD col.toNat undefCell = b.filler then
      b.grid.set row.toNat (oldRow.set col.toNat symbol)
    else b.grid
  pure { b with grid := updatedGrid }

/-- Embeds `hasWin` from `board.js`: validates the indices (the `validateSymbol`
call always succeeds on `Char`), then returns true as soon as the row, the
column, the diagonal or the anti-diagonal through `(row, col)` consists
entirely of `symbol`. -/
def Board.hasWin (b : Board) (row col : Int) (symbol : Char) : Except String Bool := do
  _ ← validateIndex row SIZE
  _ ← validateIndex col SIZE
  let rl ← b.getRowLine row
  if rl.all (· == symbol) then pure true else
  let cl ← b.getColLine col
  if cl.all (· == symbol) then pure true else
  if b.getDiagLine.all (· == symbol) then pure true else
  if b.getAntiDiagLine.all (· == symbol) then pure true else
  pure false

/-- Embeds `hasTie` from `board.js`: false when `hasWin` holds for the same move,
otherwise `grid.every(r => !r.some(cell => cell === filler))`. -/
def Board.hasTie (b : Board) (row col : Int) (symbol : Char) : Except String Bool := do
  _ ← validateIndex row SIZE
  _ ← validateIndex col SIZE
  let w ← b.hasWin row col symbol
  if w then pure false
  else pure (b.grid.all (fun r => !(r.any (· == b.filler))))

/-- Embeds `getWinCells` from `board.js`: for each of the four lines through
`(row, col)` — row, column, diagonal, anti-diagonal, in that order — that is
entirely `symbol`, append every coordinate of that line in traversal order.
The final `map` over `Number(...)` is the identity here. -/
def Board.getWinCells (b : Board) (row col : Int) (symbol : Char) :
    Except String (List Cell) := do
  _ ← validateIndex row SIZE
  _ ← validateIndex col SIZE
  let rowLine ← b.getRowLine row
  let colLine ← b.getColLine col
  let diagLine := b.getDiagLine
  let antiLine := b.getAntiDiagLine
  let cells1 := if rowLine.all (· == symbol) then
      rowLine.enum.map (fun p => Cell.mk row (p.1 : Int)) else []
  let cells2 := if colLine.all (· == symbol) then
      colLine.enum.map (fun p => Cell.mk (p.1 : Int) col) else []
  let cells3 := if diagLine.all (· == symbol) then
      diagLine.enum.map (fun p => Cell.mk (p.1 : Int) (p.1 : Int)) else []
  let cells4 := if antiLine.all (· == symbol) then
      antiLine.enum.map (fun p => Cell.mk (p.1 : Int) (SIZE - 1 - (p.1 : Int))) else []
  pure (cells1 ++ cells2 ++ cells3 ++ cells4)

/-- Embeds `resetBoard` from `board.js`: `makeBoard()`, a fresh default board. -/
def Board.resetBoard (_ : Board) : Board := defaultBoard

/-- The state held by a player object from the player module (the
`models/player.js` closure; `undefined` fields are `none`).  The embedding
follows the iteration `src/unnamed/part_000`, whose imports resolve against
`validation.js` (`models/player.js` imports a `validateId` that
`validation.js` does not export). -/
structure PlayerState where
  id : Option Int := none
  name : Option (List Char) := none
  symbol : Option Char := none
  isCurrent : Option Bool := none
  isWinner : Bool := false
  score : Int := 0
deriving DecidableEq, Repr

/-- The `if (id) validatePlayerId(id)` construction check (JS truthiness:
`0` and `undefined` skip the validation). -/
def idCheck : Option Int → Except String Int
  | some i => if i = 0 then .ok 0 else validatePlayerId i
  | none => .ok 0

/-- The `if (name) validateName(name)` construction check (JS truthiness:
`""` and `undefined` skip the validation). -/
def nameCheck : Option (List Char) → Except String (List Char)
  | some s => if s = [] then .ok [] else validateName (.str s)
  | none => .ok []

/-- Embeds `makePlayer`'s construction-time validation: the id, name and score
checks in source order.  The `validateSymbol`, `validateIsBoolean(isCurrent)`
and `validateIsBoolean(isWinner)` checks always succeed on this
representation and are omitted. -/
def makePlayer (p : PlayerState) : Except String PlayerState := do
  _ ← idCheck p.id
  _ ← nameCheck p.name
  _ ← validateScore p.score
  pure p

/-- Embeds `setId` from the player module. -/
def PlayerState.setId (p : PlayerState) (newId : Int) : Except String PlayerState := do
  let i ← validatePlayerId newId
  makePlayer { p with id := some i }

/-- Embeds `setName` from the player module:
`makePlayer({...player, name: validateName(newName).slice(0, 12)})` — the
validation (which rejects names longer than 12 characters) runs before the
truncation. -/
def PlayerState.setName (p : PlayerState) (newName : JsVal) : Except String PlayerState := do
  let n ← validateName newName
  makePlayer { p with name := some (n.take 12) }

/-- Embeds `setSymbol` from the player module (`validateSymbol` always succeeds on
`Char`). -/
def PlayerState.setSymbol (p : PlayerState) (newSymbol : Char) : Except String PlayerState :=
  makePlayer { p with symbol := some newSymbol }

/-- Embeds `setIsCurrent` from the player module. -/
def PlayerState.setIsCurrent (p : PlayerState) : Except String PlayerState :=
  makePlayer { p with isCurrent := some true }

/-- Embeds `setIsNext` from the player module. -/
def PlayerState.setIsNext (p : PlayerState) : Except String PlayerState :=
  makePlayer { p with isCurrent := some false }

/-- Embeds `setIsWinner` from the player module. -/
def PlayerState.setIsWinner (p : PlayerState) : Except String PlayerState :=
  makePlayer { p with isWinner := true }

/-- Embeds `incrementScore` from the player module. -/
def PlayerState.incrementScore (p : PlayerState) : Except String PlayerState :=
  makePlayer { p with score := p.score + 1 }

/-- Embeds `resetIsWinner` from the player module. -/
def PlayerState.resetIsWinner (p : PlayerState) : Except String PlayerState :=
  makePlayer { p with isWinner := false }

/-- The state held by a tie object from `models/tie.js`. -/
structure TieState where
  score : Int := 0
  isTie : Bool := false
deriving DecidableEq, Repr

/-- Embeds `setIsTie` from `models/tie.js`.  Construction re-runs
`validateIsPositiveInteger(score)` — a curried validator applied to one
argument, hence no actual check — and `validateIsBoolean(isTie)`, which
always passes on `Bool`; tie construction therefore never fails and the
setters are total. -/
def TieState.setIsTie (t : TieState) : TieState := { t with isTie := true }

/-- Embeds `incrementScore` from `models/tie.js`. -/
def TieState.incrementScore (t : TieState) : TieState := { t with score := t.score + 1 }

/-- Embeds `resetIsTie` from `models/tie.js`. -/
def TieState.resetIsTie (t : TieState) : TieState := { t with isTie := false }

/-- Embeds `INIT_WIN_CELLS` from `models/game.js`: `[null, null, null]`. -/
def INIT_WIN_CELLS : List (Option Cell) := [none, none, none]

/-- The game-state record destructured by `makeGame` in `models/game.js`. -/
structure GameState where
  board : Board
  player1 : PlayerState
  player2 : PlayerState
  tie : TieState
  canPlay : Bool
  winCells : List (Option Cell)
deriving DecidableEq, Repr

/-- Embeds `validateWinCells` from `validation.js`: the win-cells value must be an
array (always true here) of length exactly `size`. -/
def validateWinCells (winCells : List (Option Cell)) (size : Int) : Except String Unit :=
  if (winCells.length : Int) ≠ size then
    .error ("Win cells must have a length of " ++ toString size)
  else .ok ()

/-- A game instance as returned by `makeGame` in `models/game.js`: the two
captured name parameters, the validated state, and the per-instance observer
list of the freshly created `gameObserver` (empty on construction; observers
are identified by opaque tokens standing for JS function references). -/
structure Game where
  namePlayer1 : JsVal
  namePlayer2 : JsVal
  state : GameState
  observers : List Nat
deriving DecidableEq, Repr

/-- Embeds `makeGame` from `models/game.js`.  When no game state is supplied
(`g? = none`) the default parameter is evaluated: a fresh board, player 1
built by `makePlayer().setId(1).setName(namePlayer1).setSymbol("x")
.setIsCurrent()`, player 2 by `makePlayer().setId(2).setName(namePlayer2)
.setSymbol("o").setIsNext()`, a fresh tie, `canPlay = true` and
`winCells = INIT_WIN_CELLS`.  The supplied or constructed state is then
validated: `validateBoard`, `validatePlayer` (twice) and `validateTie` are
method-presence checks that always succeed on these structures,
`validateIsBoolean(canPlay)` always succeeds on `Bool`, and
`validateWinCells(winCells, board.getSize())` checks the length against the
board size (3). -/
def makeGame (namePlayer1 namePlayer2 : JsVal) (g? : Option GameState) :
    Except String Game := do
  let st ← match g? with
    | some st => pure st
    | none => do
        let board := defaultBoard
        let p0 ← makePlayer {}
        let p1 ← p0.setId 1
        let p1 ← p1.setName namePlayer1
        let p1 ← p1.setSymbol 'x'
        let p1 ← p1.setIsCurrent
        let q0 ← makePlayer {}
        let p2 ← q0.setId 2
        let p2 ← p2.setName namePlayer2
        let p2 ← p2.setSymbol 'o'
        let p2 ← p2.setIsNext
        pure { board := board, player1 := p1, player2 := p2, tie := {},
               canPlay := true, winCells := INIT_WIN_CELLS }
  validateWinCells st.winCells SIZE
  pure { namePlayer1 := namePlayer1, namePlayer2 := namePlayer2,
         state := st, observers := [] }

/-- Embeds `getCurrentPlayer` from `models/game.js`:
`player1.getIsCurrent() ? player1 : player2` (JS truthiness: an `undefined`
or `false` flag selects player 2). -/
def Game.getCurrentPlayer (g : Game) : PlayerState :=
  if g.state.player1.isCurrent.getD false then g.state.player1 else g.state.player2

/-- Embeds `addObserver` from `observer.js` via `models/game.js`: pushes the
observer onto the instance's mutable `observers` array. -/
def Game.addObserver (g : Game) (o : Nat) : Game :=
  { g with observers := g.observers ++ [o] }

/-- The array returned by `removeObserver` in `observer.js`:
`observers.filter(o => o !== observer)`. -/
def removeObserverReturn (observers : List Nat) (o : Nat) : List Nat :=
  observers.filter (fun x => x ≠ o)

/-- Embeds `removeObserver` from `observer.js` via `models/game.js`:
`observers.filter(...)` creates and returns a new array; the captured
`observers` binding (a `const` array) is never reassigned and `filter` does
not mutate it, so the instance's stored observer list is unchanged.
(Contrast the iteration `src/unnamed/part_004`, which reassigns
`observers = observers.filter(...)`.) -/
def Game.removeObserver (g : Game) (o : Nat) : Game × List Nat :=
  (g, removeObserverReturn g.observers o)

/-- Embeds `playTurn` from `models/game.js`.  Returns the new game together with
the list of observers of the receiving instance that `notifyObservers`
invoked with it, in subscription order.  On the no-op branch
(`!canPlay || cell !== filler`) the source executes `return makeGame(game)`,
which passes the current state object as the `namePlayer1` parameter of
`makeGame` and leaves the other two parameters to their defaults, so the
default game state is constructed with `setName` applied to a non-string. -/
def Game.playTurn (g : Game) (row col : Int) : Except String (Game × List Nat) := do
  let cell ← g.state.board.getCell row col
  let filler := g.state.board.filler
  if ¬ g.state.canPlay ∨ cell ≠ filler then do
    let ng ← makeGame JsVal.obj (JsVal.str "Player 2".toList) none
    pure (ng, [])
  else do
    let currentPlayer := g.getCurrentPlayer
    let symbol := currentPlayer.symbol.getD undefCell
    let updatedBoard ← g.state.board.setCell row col symbol
    let isWin ← updatedBoard.hasWin row col symbol
    let isTie ← updatedBoard.hasTie row col symbol
    let updatedPlayer ← if isWin then do
        let w ← currentPlayer.setIsWinner
        w.incrementScore
      else pure currentPlayer
    let winningCells ← if isWin then do
        let cs ← updatedBoard.getWinCells row col symbol
        pure (cs.map some)
      else pure INIT_WIN_CELLS
    let updatedPlayer1 ← if g.state.player1.id = updatedPlayer.id then
        updatedPlayer.setIsNext
      else g.state.player1.setIsCurrent
    let updatedPlayer2 ← if updatedPlayer.id = g.state.player2.id then
        updatedPlayer.setIsNext
      else g.state.player2.setIsCurrent
    let updatedTie := if isTie then g.state.tie.setIsTie.incrementScore else g.state.tie
    let ng ← makeGame g.namePlayer1 g.namePlayer2 (some
      { board := updatedBoard
        player1 := updatedPlayer1
        player2 := updatedPlayer2
        tie := updatedTie
        canPlay := !(isWin || isTie)
        winCells := winningCells })
    pure (ng, g.observers)

/-- Embeds `startNewRound` from `models/game.js`: resets the board, clears each
player's `isWinner` (when set) and the tie's `isTie` (when set), and
rebuilds the game from `{...game, board, player1, player2, tie, canPlay:
INIT_CAN_PLAY}` — the spread carries every other field of the old state
forward, `winCells` included.  Returns the new game with the notified
observers of the receiving instance. -/
def Game.startNewRound (g : Game) : Except String (Game × List Nat) := do
  let updatedBoard := g.state.board.resetBoard
  let updatedPlayer1 ← if g.state.player1.isWinner then
      g.state.player1.resetIsWinner
    else pure g.state.player1
  let updatedPlayer2 ← if g.state.player2.isWinner then
      g.state.player2.resetIsWinner
    else pure g.state.player2
  let updatedTie := if g.state.tie.isTie then g.state.tie.resetIsTie else g.state.tie
  let ng ← makeGame g.namePlayer1 g.namePlayer2 (some
    { g.state with
        board := updatedBoard
        player1 := updatedPlayer1
        player2 := updatedPlayer2
        tie := updatedTie
        canPlay := true })
  pure (ng, g.observers)

/-- Direct cell read `grid[row][col]` without index validation (the value
`getCell` returns once validation has passed). -/
def cellAt (b : Board) (row col : Int) : Char :=
  (b.grid.getD row.toNat []).getD col.toNat undefCell

/-- A player state that `makePlayer`'s construction-time validation accepts
unchanged, as every player reachable through the setters is. -/
def PlayerState.Valid (p : PlayerState) : Prop := makePlayer p = .ok p

instance : DecidablePred PlayerState.Valid := fun p => by
  unfold PlayerState.Valid; infer_instance

/-- The eight winning line configurations of the 3×3 board: rows 0–2,
columns 0–2, the main diagonal, the anti-diagonal, each given as its cell
coordinates in traversal order. -/
def lineCells : Fin 8 → List (Int × Int)
  | 0 => [(0, 0), (0, 1), (0, 2)]
  | 1 => [(1, 0), (1, 1), (1, 2)]
  | 2 => [(2, 0), (2, 1), (2, 2)]
  | 3 => [(0, 0), (1, 0), (2, 0)]
  | 4 => [(0, 1), (1, 1), (2, 1)]
  | 5 => [(0, 2), (1, 2), (2, 2)]
  | 6 => [(0, 0), (1, 1), (2, 2)]
  | 7 => [(0, 2), (1, 1), (2, 0)]

/-- The board whose cells on winning line `k` hold `s` and whose every
other cell holds the filler `f`. -/
def winConfigBoard : Fin 8 → Char → Char → Board
  | 0, s, f => ⟨[[s, s, s], [f, f, f], [f, f, f]], f⟩
  | 1, s, f => ⟨[[f, f, f], [s, s, s], [f, f, f]], f⟩
  | 2, s, f => ⟨[[f, f, f], [f, f, f], [s, s, s]], f⟩
  | 3, s, f => ⟨[[s, f, f], [s, f, f], [s, f, f]], f⟩
  | 4, s, f => ⟨[[f, s, f], [f, s, f], [f, s, f]], f⟩
  | 5, s, f => ⟨[[f, f, s], [f, f, s], [f, f, s]], f⟩
  | 6, s, f => ⟨[[s, f, f], [f, s, f], [f, f, s]], f⟩
  | 7, s, f => ⟨[[f, f, s], [f, s, f], [s, f, f]], f⟩

/-- Modelled from the specification's description of `getWinCells` (§4.1):
every coordinate of each of the four lines through `(row, col)` that is
fully filled with `symbol`, concatenated in row-then-column-then-diagonal-
then-anti-diagonal order, each line's cells in traversal order, duplicates
kept. -/
def getWinCellsSpec (b : Board) (row col : Int) (symbol : Char) : List Cell :=
  (if ∀ j : Fin 3, cellAt b row (j : Int) = symbol then
    [⟨row, 0⟩, ⟨row, 1⟩, ⟨row, 2⟩] else []) ++
  (if ∀ i : Fin 3, cellAt b (i : Int) col = symbol then
    [⟨0, col⟩, ⟨1, col⟩, ⟨2, col⟩] else []) ++
  (if ∀ i : Fin 3, cellAt b (i : Int) (i : Int) = symbol then
    [⟨0, 0⟩, ⟨1, 1⟩, ⟨2, 2⟩] else []) ++
  (if ∀ i : Fin 3, cellAt b (i : Int) (2 - (i : Int)) = symbol then
    [⟨0, 2⟩, ⟨1, 1⟩, ⟨2, 0⟩] else [])

/-- The default player-name arguments of the external `makeGame` calls. -/
def name1 : JsVal := .str "Player 1".toList

/-- Second default player name. -/
def name2 : JsVal := .str "Player 2".toList

/-- A fallback game value used only to extract concrete games from
successful `Except` computations. -/
def dummyGame : Game :=
  { namePlayer1 := .obj, namePlayer2 := .obj
    state := { board := defaultBoard, player1 := {}, player2 := {}, tie := {}
               canPlay := true, winCells := INIT_WIN_CELLS }
    observers := [] }

/-- A played-out round: from a fresh game, x takes (0,0), (0,1), (0,2)
while o takes (1,0), (1,1) — x's last move wins row 0. -/
def winChain : Except String (Game × List Nat) := do
  let g0 ← makeGame name1 name2 none
  let (g1, _) ← g0.playTurn 0 0
  let (g2, _) ← g1.playTurn 1 0
  let (g3, _) ← g2.playTurn 0 1
  let (g4, _) ← g3.playTurn 1 1
  g4.playTurn 0 2

/-- The concrete game state reached by the winning move of `winChain`. -/
def gameAfterWin : Game :=
  ((winChain.toOption).map Prod.fst).getD dummyGame

/-- A full board with no three-in-a-row for either symbol. -/
def fullTieBoard : Board :=
  ⟨[['x', 'o', 'x'], ['x', 'o', 'o'], ['o', 'x', 'x']], '_'⟩

/-- A board on which the move (0,0) has just completed both row 0 and the
main diagonal for x. -/
def doubleWinBoard : Board :=
  ⟨[['x', 'x', 'x'], ['o', 'x', 'o'], ['o', 'o', 'x']], '_'⟩

/-! ## Helper lemmas -/

theorem validateIndex_ok {i : Int} (h0 : 0 ≤ i) (h3 : i < 3) :
    validateIndex i SIZE = .ok i := by
  unfold validateIndex SIZE
  rw [if_neg (by omega)]

theorem validateIndex_err {i : Int} (h : i < 0 ∨ 3 ≤ i) :
    validateIndex i SIZE = .error indexErrMsg := by
  unfold validateIndex SIZE
  rw [if_pos (by omega)]

theorem getCell_ok (b : Board) {row col : Int}
    (hr0 : 0 ≤ row) (hr : row < 3) (hc0 : 0 ≤ col) (hc : col < 3) :
    b.getCell row col = .ok (cellAt b row col) := by
  unfold Board.getCell cellAt
  rw [validateIndex_ok hr0 hr, validateIndex_ok hc0 hc]
  rfl

theorem getCell_err (b : Board) {row col : Int}
    (h : row < 0 ∨ 3 ≤ row ∨ col < 0 ∨ 3 ≤ col) :
    b.getCell row col = .error indexErrMsg := by
  unfold Board.getCell
  by_cases hrow : row < 0 ∨ 3 ≤ row
  · rw [validateIndex_err hrow]
    rfl
  · rw [validateIndex_ok (by omega) (by omega), validateIndex_err (by omega)]
    rfl

theorem setCell_err (b : Board) (s : Char) {row col : Int}
    (h : row < 0 ∨ 3 ≤ row ∨ col < 0 ∨ 3 ≤ col) :
    b.setCell row col s = .error indexErrMsg := by
  unfold Board.setCell
  by_cases hrow : row < 0 ∨ 3 ≤ row
  · rw [validateIndex_err hrow]
    rfl
  · rw [validateIndex_ok (by omega) (by omega), validateIndex_err (by omega)]
    rfl

theorem playTurn_index_err (g : Game) {row col : Int}
    (h : row < 0 ∨ 3 ≤ row ∨ col < 0 ∨ 3 ≤ col) :
    g.playTurn row col = .error indexErrMsg := by
  unfold Game.playTurn
  rw [getCell_err _ h]
  rfl

theorem makePlayer_ok_of_parts {p : PlayerState}
    (hid : ∃ a, idCheck p.id = .ok a)
    (hname : ∃ b, nameCheck p.name = .ok b)
    (hscore : ∃ c, validateScore p.score = .ok c) :
    makePlayer p = .ok p := by
  obtain ⟨a, ha⟩ := hid
  obtain ⟨b, hb⟩ := hname
  obtain ⟨c, hc⟩ := hscore
  simp only [makePlayer, ha, hb, hc]
  rfl

theorem parts_of_valid {p : PlayerState} (h : p.Valid) :
    (∃ a, idCheck p.id = .ok a) ∧ (∃ b, nameCheck p.name = .ok b) ∧
      (∃ c, validateScore p.score = .ok c) := by
  unfold PlayerState.Valid makePlayer at h
  cases hid : idCheck p.id with
  | error e => rw [hid] at h; exact absurd h (by simp [Bind.bind, Except.bind])
  | ok a =>
    cases hn : nameCheck p.name with
    | error e => rw [hid, hn] at h; exact absurd h (by simp [Bind.bind, Except.bind])
    | ok b =>
      cases hs : validateScore p.score with
      | error e => rw [hid, hn, hs] at h; exact absurd h (by simp [Bind.bind, Except.bind])
      | ok c => exact ⟨⟨a, rfl⟩, ⟨b, rfl⟩, ⟨c, rfl⟩⟩

theorem valid_update {p q : PlayerState} (h : p.Valid)
    (hid : q.id = p.id) (hname : q.name = p.name) (hscore : q.score = p.score) :
    makePlayer q = .ok q := by
  obtain ⟨ha, hb, hc⟩ := parts_of_valid h
  exact makePlayer_ok_of_parts (hid ▸ ha) (hname ▸ hb) (hscore ▸ hc)

theorem resetIsWinner_ok {p : PlayerState} (h : p.Valid) :
    p.resetIsWinner = .ok { p with isWinner := false } :=
  valid_update h rfl rfl rfl

theorem resetStep {p : PlayerState} (h : p.Valid) :
    (if p.isWinner then p.resetIsWinner else pure p) =
      Except.ok { p with isWinner := false } := by
  by_cases hw : p.isWinner
  · rw [if_pos hw]
    exact resetIsWinner_ok h
  · rw [if_neg hw]
    have he : ({ p with isWinner := false } : PlayerState) = p := by
      cases p
      simp_all
    rw [he]
    rfl

theorem tieStep (t : TieState) :
    (if t.isTie then t.resetIsTie else t) = { t with isTie := false } := by
  cases t with
  | mk score isTie => cases isTie <;> simp [TieState.resetIsTie]

theorem makeGame_some (n1 n2 : JsVal) (st : GameState) (h : st.winCells.length = 3) :
    makeGame n1 n2 (some st) = .ok ⟨n1, n2, st, []⟩ := by
  have hv : validateWinCells st.winCells SIZE = .ok () := by
    unfold validateWinCells SIZE
    rw [if_neg]
    simp [h]
  unfold makeGame
  simp only [Bind.bind, Except.bind, pure, Except.pure, hv]


theorem playerEta (p : PlayerState) (h : p.isWinner = false) :
    p = { p with isWinner := false } := by
  cases p
  simp_all

theorem startNewRound_eq (g : Game)
    (h1 : g.state.player1.Valid) (h2 : g.state.player2.Valid)
    (hw : g.state.winCells.length = 3) :
    g.startNewRound = .ok
      (⟨g.namePlayer1, g.namePlayer2,
        { g.state with
            board := defaultBoard
            player1 := { g.state.player1 with isWinner := false }
            player2 := { g.state.player2 with isWinner := false }
            tie := { g.state.tie with isTie := false }
            canPlay := true }, []⟩, g.observers) := by
  unfold Game.startNewRound
  cases hb1 : g.state.player1.isWinner <;> cases hb2 : g.state.player2.isWinner <;>
    simp only [Bool.false_eq_true, if_false, if_true, eq_self_iff_true,
      resetIsWinner_ok h1, resetIsWinner_ok h2, tieStep, Board.resetBoard,
      Bind.bind, Except.bind, pure, Except.pure] <;>
    first
      | (rw [← playerEta g.state.player1 hb1, ← playerEta g.state.player2 hb2,
          makeGame_some] <;> exact hw)
      | (rw [← playerEta g.state.player1 hb1, makeGame_some] <;> exact hw)
      | (rw [← playerEta g.state.player2 hb2, makeGame_some] <;> exact hw)
      | (rw [makeGame_some] <;> exact hw)

/-! ## Claim theorems -/

/-- C1 (code bug): on the no-op branch of `playTurn` (here: the target cell
is already occupied after a first successful move at the same coordinates),
the source's `return makeGame(game)` passes the game-state object as the
`namePlayer1` parameter, and the default-construction path then throws
`Error("Player name must be a string")` from `setName` — `playTurn` throws
instead of returning an unchanged-equivalent game. -/
theorem c1_noop_branch_throws :
    (do
      let g0 ← makeGame name1 name2 none
      let p ← g0.playTurn 0 0
      (p.1).playTurn 0 0 : Except String (Game × List Nat)) =
      .error "Player name must be a string" := by
  rfl

/-- C2 (amended): after any game state with validation-accepted players and
a length-3 `winCells` sequence (every state reached by a winning move is of
this form), `startNewRound` preserves both players' scores and the tie's
score, clears both `isWinner` flags, clears the board, and sets `canPlay`
true — but carries the previous `winCells` sequence forward unchanged
instead of resetting it to the null placeholders. -/
theorem c2_startNewRound_preserves (g : Game)
    (h1 : g.state.player1.Valid) (h2 : g.state.player2.Valid)
    (hw : g.state.winCells.length = 3) :
    ∃ g2 : Game, g.startNewRound = .ok (g2, g.observers) ∧
      g2.state.player1.score = g.state.player1.score ∧
      g2.state.player2.score = g.state.player2.score ∧
      g2.state.tie.score = g.state.tie.score ∧
      g2.state.player1.isWinner = false ∧
      g2.state.player2.isWinner = false ∧
      g2.state.board = defaultBoard ∧
      g2.state.canPlay = true ∧
      g2.state.winCells = g.state.winCells :=
  ⟨_, startNewRound_eq g h1 h2 hw, rfl, rfl, rfl, rfl, rfl, rfl, rfl, rfl⟩

/-- C2 witness: the amended statement instantiated at the concrete game
reached by x winning row 0. -/
theorem c2_startNewRound_preserves_witness :
    (gameAfterWin.state.player1.Valid ∧ gameAfterWin.state.player2.Valid ∧
      gameAfterWin.state.winCells.length = 3) ∧
    (∃ g2 : Game, gameAfterWin.startNewRound = .ok (g2, gameAfterWin.observers) ∧
      g2.state.player1.score = gameAfterWin.state.player1.score ∧
      g2.state.player2.score = gameAfterWin.state.player2.score ∧
      g2.state.tie.score = gameAfterWin.state.tie.score ∧
      g2.state.player1.isWinner = false ∧
      g2.state.player2.isWinner = false ∧
      g2.state.board = defaultBoard ∧
      g2.state.canPlay = true ∧
      g2.state.winCells = gameAfterWin.state.winCells) :=
  ⟨⟨by decide, by decide, by decide⟩,
    c2_startNewRound_preserves gameAfterWin (by decide) (by decide) (by decide)⟩

/-- C2 counterexample: in the game just won by x across row 0 (so the state
was reached by a winning move), `startNewRound` returns a game whose
`winCells` is still the winning line, not the initial null-placeholder
sequence `[null, null, null]`. -/
theorem c2_counterexample :
    gameAfterWin.state.player1.isWinner = true ∧
    (gameAfterWin.startNewRound).map (fun p => p.1.state.winCells) =
      .ok [some ⟨0, 0⟩, some ⟨0, 1⟩, some ⟨0, 2⟩] ∧
    [some (Cell.mk 0 0), some (Cell.mk 0 1), some (Cell.mk 0 2)] ≠ INIT_WIN_CELLS := by
  refine ⟨by rfl, by rfl, by decide⟩

/-- C4 counterexample: a 13-character name (length ≥ 1) is rejected by
`setName` with a validation error, not silently truncated. -/
theorem c4_counterexample :
    ({} : PlayerState).setName (.str "Abcdefghijklm".toList) =
      .error "Player name must be at most 12 characters long" := by
  rfl

/-- C5 (code bug): after `addObserver(f)` and `removeObserver(f)` on the
same instance, a successful `playTurn` still notifies `f` — `removeObserver`
discards the array produced by `filter`, so the subscription survives. -/
theorem c5_removeObserver_ineffective :
    (do
      let g ← makeGame (.str "A".toList) (.str "B".toList) none
      let g := g.addObserver 7
      let (g, _) := g.removeObserver 7
      let r ← g.playTurn 0 0
      pure r.2 : Except String (List Nat)) = .ok [7] := by
  rfl

/-- C8: any row or column outside `[0, 3)` makes `getCell`, `setCell` and
`playTurn` fail with the index error; nothing is clamped or wrapped. -/
theorem c8_out_of_range_index_error (b : Board) (g : Game) (s : Char) (row col : Int)
    (h : row < 0 ∨ 3 ≤ row ∨ col < 0 ∨ 3 ≤ col) :
    b.getCell row col = .error indexErrMsg ∧
    b.setCell row col s = .error indexErrMsg ∧
    g.playTurn row col = .error indexErrMsg :=
  ⟨getCell_err b h, setCell_err b s h, playTurn_index_err g h⟩

/-- C8 witness: `row = 3` on the (size-3) default board and a concrete
game. -/
theorem c8_out_of_range_index_error_witness :
    ((3 : Int) < 0 ∨ (3 : Int) ≤ 3 ∨ (0 : Int) < 0 ∨ (3 : Int) ≤ 0) ∧
    (defaultBoard.getCell 3 0 = .error indexErrMsg ∧
      defaultBoard.setCell 3 0 'x' = .error indexErrMsg ∧
      dummyGame.playTurn 3 0 = .error indexErrMsg) :=
  ⟨by decide, c8_out_of_range_index_error defaultBoard dummyGame 'x' 3 0 (by decide)⟩

/-- C10: a reachable double-line win — from a fresh game, x takes (0,1),
(0,2), (1,1), (2,2) and finally (0,0), completing row 0 and the main
diagonal at once, while o takes (1,0), (1,2), (2,0), (2,1) — makes
`getWinCells` produce six cells, and the construction of the new game
inside `playTurn` throws the `validateWinCells` length error instead of
returning a game with a 6-element `winCells` sequence. -/
theorem c10_double_line_win_throws :
    (do
      let g0 ← makeGame name1 name2 none
      let (g1, _) ← g0.playTurn 0 1
      let (g2, _) ← g1.playTurn 1 0
      let (g3, _) ← g2.playTurn 0 2
      let (g4, _) ← g3.playTurn 1 2
      let (g5, _) ← g4.playTurn 1 1
      let (g6, _) ← g5.playTurn 2 0
      let (g7, _) ← g6.playTurn 2 2
      let (g8, _) ← g7.playTurn 2 1
      g8.playTurn 0 0 : Except String (Game × List Nat)) =
      .error "Win cells must have a length of 3" := by
  rfl

/-- C4 (amended): `setName` succeeds exactly on names of length 1 to 12 and
stores the name as given (`slice(0, 12)` is a no-op on names that pass
validation); names longer than 12 characters are rejected with a validation
error, not truncated. -/
theorem c4_setName_bounds (p : PlayerState) (hp : p.Valid) (s : List Char) :
    (1 ≤ s.length → s.length ≤ 12 →
      p.setName (.str s) = .ok { p with name := some s }) ∧
    (12 < s.length →
      p.setName (.str s) = .error "Player name must be at most 12 characters long") := by
  constructor
  · intro hl1 hl2
    have hv : validateName (.str s) = .ok s := by
      simp only [validateName]
      rw [if_neg (by omega), if_neg (by omega)]
    have ht : s.take 12 = s := List.take_of_length_le hl2
    have hne : s ≠ [] := by
      intro he
      rw [he] at hl1
      simp at hl1
    have hnc : nameCheck (some s) = .ok s := by
      simp only [nameCheck]
      rw [if_neg hne, hv]
    obtain ⟨ha, _, hc⟩ := parts_of_valid hp
    unfold PlayerState.setName
    rw [hv]
    simp only [Bind.bind, Except.bind, ht]
    exact makePlayer_ok_of_parts ha ⟨s, hnc⟩ hc
  · intro hl
    have hv : validateName (.str s) =
        .error "Player name must be at most 12 characters long" := by
      simp only [validateName]
      rw [if_neg (by omega), if_pos (by omega)]
    unfold PlayerState.setName
    rw [hv]
    rfl

/-- C4 witness: a fresh player accepts the 3-character name "Bob" verbatim
and rejects a 13-character name. -/
theorem c4_setName_bounds_witness :
    (({} : PlayerState).Valid ∧ 1 ≤ ("Bob".toList).length ∧
      ("Bob".toList).length ≤ 12 ∧ 12 < ("Abcdefghijklm".toList).length) ∧
    ({} : PlayerState).setName (.str "Bob".toList) =
      .ok { ({} : PlayerState) with name := some "Bob".toList } ∧
    ({} : PlayerState).setName (.str "Abcdefghijklm".toList) =
      .error "Player name must be at most 12 characters long" :=
  ⟨⟨by decide, by decide, by decide, by decide⟩,
    (c4_setName_bounds {} (by decide) "Bob".toList).1 (by decide) (by decide),
    (c4_setName_bounds {} (by decide) "Abcdefghijklm".toList).2 (by decide)⟩

theorem list_getD_set {α : Type} (l : List α) (m n : Nat) (x d : α) :
    (l.set m x).getD n d = if m = n ∧ n < l.length then x else l.getD n d := by
  induction l generalizing m n with
  | nil => simp
  | cons a t ih =>
    cases m with
    | zero =>
      cases n with
      | zero => simp
      | succ k => simp
    | succ j =>
      cases n with
      | zero => simp
      | succ k =>
        rw [show (a :: t).set (j + 1) x = a :: t.set j x from rfl,
          List.getD_cons_succ, List.getD_cons_succ, ih]
        have hiff : (j + 1 = k + 1 ∧ k + 1 < (a :: t).length) ↔
            (j = k ∧ k < t.length) := by
          simp only [List.length_cons]
          omega
        rw [if_congr hiff rfl rfl]

theorem rowLen (b : Board) (hwf : b.WF) {n : Nat} (h : n < 3) :
    (b.grid.getD n []).length = 3 := by
  have hlen : n < b.grid.length := by rw [hwf.1]; omega
  have hmem : b.grid.getD n [] ∈ b.grid := by
    rw [List.getD_eq_getElem _ _ hlen]
    exact List.getElem_mem hlen
  exact hwf.2 _ hmem

/-- C6: on a well-formed board, `setCell` succeeds for in-range coordinates;
if the target cell already holds a non-filler symbol the returned board's
grid content equals the original's, otherwise the target cell becomes the
placed symbol and every other cell is unchanged.  (The original board value
is never mutated — all operations are pure in this embedding, mirroring the
source's deep copy of the grid before writing.) -/
theorem c6_setCell_frame (b : Board) (hwf : b.WF) (row col : Int)
    (hr0 : 0 ≤ row) (hr : row < 3) (hc0 : 0 ≤ col) (hc : col < 3) (s : Char) :
    ∃ b' : Board, b.setCell row col s = .ok b' ∧ b'.filler = b.filler ∧
      (cellAt b row col ≠ b.filler → b'.grid = b.grid) ∧
      (cellAt b row col = b.filler →
        cellAt b' row col = s ∧
        ∀ i j : Int, 0 ≤ i → i < 3 → 0 ≤ j → j < 3 → ¬(i = row ∧ j = col) →
          cellAt b' i j = cellAt b i j) := by
  have hrow3 : row.toNat < b.grid.length := by rw [hwf.1]; omega
  have hcol3 : col.toNat < (b.grid.getD row.toNat []).length := by
    rw [rowLen b hwf (by omega)]
    omega
  by_cases hocc : cellAt b row col = b.filler
  · refine ⟨⟨b.grid.set row.toNat ((b.grid.getD row.toNat []).set col.toNat s),
      b.filler⟩, ?_, rfl, fun hne => absurd hocc hne, fun _ => ⟨?_, ?_⟩⟩
    · unfold Board.setCell
      rw [validateIndex_ok hr0 hr, validateIndex_ok hc0 hc]
      unfold cellAt at hocc
      simp only [Bind.bind, Except.bind, pure, Except.pure, if_pos hocc]
    · show ((b.grid.set row.toNat ((b.grid.getD row.toNat []).set col.toNat s)).getD
        row.toNat []).getD col.toNat undefCell = s
      rw [list_getD_set, if_pos ⟨rfl, hrow3⟩, list_getD_set, if_pos ⟨rfl, hcol3⟩]
    · intro i j hi0 hi hj0 hj hne
      show ((b.grid.set row.toNat ((b.grid.getD row.toNat []).set col.toNat s)).getD
        i.toNat []).getD j.toNat undefCell = cellAt b i j
      by_cases hieq : i = row
      · subst hieq
        have hjne : j ≠ col := by tauto
        rw [list_getD_set, if_pos ⟨rfl, hrow3⟩, list_getD_set,
          if_neg (by intro hcon; exact hjne (by omega))]
        rfl
      · rw [list_getD_set, if_neg (by intro hcon; exact hieq (by omega))]
        rfl
  · refine ⟨b, ?_, rfl, fun _ => rfl, fun h => absurd h hocc⟩
    unfold Board.setCell
    rw [validateIndex_ok hr0 hr, validateIndex_ok hc0 hc]
    unfold cellAt at hocc
    simp only [Bind.bind, Except.bind, pure, Except.pure, if_neg hocc]

/-- C6 witness: placing `'x'` at (0,0) on the empty default board. -/
theorem c6_setCell_frame_witness :
    (defaultBoard.WF ∧ (0 : Int) ≤ 0 ∧ (0 : Int) < 3) ∧
    (∃ b' : Board, defaultBoard.setCell 0 0 'x' = .ok b' ∧
      b'.filler = defaultBoard.filler ∧
      (cellAt defaultBoard 0 0 ≠ defaultBoard.filler → b'.grid = defaultBoard.grid) ∧
      (cellAt defaultBoard 0 0 = defaultBoard.filler →
        cellAt b' 0 0 = 'x' ∧
        ∀ i j : Int, 0 ≤ i → i < 3 → 0 ≤ j → j < 3 → ¬(i = 0 ∧ j = 0) →
          cellAt b' i j = cellAt defaultBoard i j)) :=
  ⟨⟨by decide, by decide, by decide⟩,
    c6_setCell_frame defaultBoard (by decide) 0 0 (by decide) (by decide)
      (by decide) (by decide) 'x'⟩

theorem hasTie_eq (b : Board) {row col : Int} (s : Char)
    (hr0 : 0 ≤ row) (hr : row < 3) (hc0 : 0 ≤ col) (hc : col < 3) :
    b.hasTie row col s = (b.hasWin row col s).bind (fun w =>
      .ok (if w then false else b.grid.all (fun r => !(r.any (· == b.filler))))) := by
  unfold Board.hasTie
  rw [validateIndex_ok hr0 hr, validateIndex_ok hc0 hc]
  show Except.bind (b.hasWin row col s) _ = Except.bind (b.hasWin row col s) _
  congr 1
  funext w
  cases w <;> rfl

theorem gridAll_iff (b : Board) (hwf : b.WF) :
    (b.grid.all (fun r => !(r.any (· == b.filler))) = true) ↔
      ∀ i j : Int, 0 ≤ i → i < 3 → 0 ≤ j → j < 3 → cellAt b i j ≠ b.filler := by
  rw [List.all_eq_true]
  constructor
  · intro h i j hi0 hi hj0 hj
    have hi3 : i.toNat < b.grid.length := by rw [hwf.1]; omega
    have hmem : b.grid.getD i.toNat [] ∈ b.grid := by
      rw [List.getD_eq_getElem _ _ hi3]
      exact List.getElem_mem hi3
    have hrlen : (b.grid.getD i.toNat []).length = 3 := hwf.2 _ hmem
    have hj3 : j.toNat < (b.grid.getD i.toNat []).length := by omega
    have hcmem : cellAt b i j ∈ b.grid.getD i.toNat [] := by
      unfold cellAt
      rw [List.getD_eq_getElem _ _ hj3]
      exact List.getElem_mem hj3
    have hr := h _ hmem
    rw [Bool.not_eq_true'] at hr
    intro hceq
    have hc2 := (List.any_eq_false.mp hr) _ hcmem
    rw [hceq] at hc2
    simp at hc2
  · intro h r hrmem
    rw [Bool.not_eq_true', List.any_eq_false]
    intro x hx
    rcases List.mem_iff_getElem.mp hrmem with ⟨i, hi, hieq⟩
    rcases List.mem_iff_getElem.mp hx with ⟨j, hj, hjeq⟩
    have hrlen : r.length = 3 := hwf.2 _ hrmem
    have hcell : cellAt b (i : Int) (j : Int) = x := by
      unfold cellAt
      rw [Int.toNat_natCast, Int.toNat_natCast,
        List.getD_eq_getElem _ _ hi, hieq, List.getD_eq_getElem _ _ hj, hjeq]
    have hilt : (i : Int) < 3 := by
      have hfin : i < 3 := by
        have := hwf.1
        omega
      exact_mod_cast hfin
    have hjlt : (j : Int) < 3 := by
      have hfin : j < 3 := by omega
      exact_mod_cast hfin
    have hne := h i j (Int.natCast_nonneg i) hilt (Int.natCast_nonneg j) hjlt
    rw [hcell] at hne
    simp [hne]

/-- C7: on a well-formed board with in-range coordinates, `hasTie` returns
false whenever `hasWin` returns true for the same move; when `hasWin`
returns false, `hasTie` returns true exactly when no cell anywhere on the
board holds the filler. -/
theorem c7_hasTie_characterization (b : Board) (hwf : b.WF) (row col : Int)
    (hr0 : 0 ≤ row) (hr : row < 3) (hc0 : 0 ≤ col) (hc : col < 3) (s : Char) :
    (b.hasWin row col s = .ok true → b.hasTie row col s = .ok false) ∧
    (b.hasWin row col s = .ok false →
      (b.hasTie row col s = .ok true ↔
        ∀ i j : Int, 0 ≤ i → i < 3 → 0 ≤ j → j < 3 → cellAt b i j ≠ b.filler)) := by
  constructor
  · intro hw
    rw [hasTie_eq b s hr0 hr hc0 hc, hw]
    rfl
  · intro hw
    rw [hasTie_eq b s hr0 hr hc0 hc, hw]
    show Except.ok (if false then false else _) = _ ↔ _
    rw [if_neg (by simp)]
    constructor
    · intro hall
      exact (gridAll_iff b hwf).mp (by injection hall)
    · intro hptw
      rw [(gridAll_iff b hwf).mpr hptw]

/-- C7 witness: the full no-winner board; `hasWin` is false at (0,0) for
`'x'` and `hasTie` is true there. -/
theorem c7_hasTie_characterization_witness :
    (fullTieBoard.WF ∧ (0 : Int) ≤ 0 ∧ (0 : Int) < 3) ∧
    ((fullTieBoard.hasWin 0 0 'x' = .ok true → fullTieBoard.hasTie 0 0 'x' = .ok false) ∧
      (fullTieBoard.hasWin 0 0 'x' = .ok false →
        (fullTieBoard.hasTie 0 0 'x' = .ok true ↔
          ∀ i j : Int, 0 ≤ i → i < 3 → 0 ≤ j → j < 3 →
            cellAt fullTieBoard i j ≠ fullTieBoard.filler))) :=
  ⟨⟨by decide, by decide, by decide⟩,
    c7_hasTie_characterization fullTieBoard (by decide) 0 0 (by decide) (by decide)
      (by decide) (by decide) 'x'⟩

/-- C3: on each of the 8 winning line configurations (3 rows, 3 columns,
2 diagonals) in which the line holds one symbol `s` and every other cell
holds the filler `f`, `hasWin` returns true at every cell of the line for
`s` and false there for any other symbol `t`. -/
theorem c3_hasWin_line_configs (k : Fin 8) (s f t : Char)
    (hsf : s ≠ f) (hts : t ≠ s) (htf : t ≠ f)
    (rc : Int × Int) (hrc : rc ∈ lineCells k) :
    (winConfigBoard k s f).hasWin rc.1 rc.2 s = .ok true ∧
    (winConfigBoard k s f).hasWin rc.1 rc.2 t = .ok false := by
  have hfs : (f == s) = false := beq_eq_false_iff_ne.mpr (Ne.symm hsf)
  have hst : (s == t) = false := beq_eq_false_iff_ne.mpr (Ne.symm hts)
  have hft : (f == t) = false := beq_eq_false_iff_ne.mpr (Ne.symm htf)
  fin_cases k <;>
    simp only [lineCells, List.mem_cons, List.not_mem_nil, or_false] at hrc <;>
    rcases hrc with rfl | rfl | rfl <;>
    constructor <;>
    simp [winConfigBoard, Board.hasWin, Board.getRowLine, Board.getColLine,
      Board.getDiagLine, Board.getAntiDiagLine, validateIndex, SIZE, hfs, hst, hft,
      Bind.bind, Except.bind, pure, Except.pure, List.mapM, List.mapM.loop, undefCell,
      List.enum, List.enumFrom]

/-- C3 witness: row 0 filled with `'x'` over filler `'_'`, checked at
(0,0) for `'x'` (win) and `'o'` (no win). -/
theorem c3_hasWin_line_configs_witness :
    (('x' : Char) ≠ '_' ∧ ('o' : Char) ≠ 'x' ∧ ('o' : Char) ≠ '_' ∧
      ((0 : Int), (0 : Int)) ∈ lineCells 0) ∧
    ((winConfigBoard 0 'x' '_').hasWin 0 0 'x' = .ok true ∧
      (winConfigBoard 0 'x' '_').hasWin 0 0 'o' = .ok false) :=
  ⟨⟨by decide, by decide, by decide, by decide⟩,
    c3_hasWin_line_configs 0 'x' '_' 'o' (by decide) (by decide) (by decide)
      ((0 : Int), (0 : Int)) (by decide)⟩

theorem fin3_forall (p : Fin 3 → Prop) : (∀ i : Fin 3, p i) ↔ p 0 ∧ p 1 ∧ p 2 :=
  ⟨fun h => ⟨h 0, h 1, h 2⟩, fun h i => by
    obtain ⟨h0, h1, h2⟩ := h
    fin_cases i <;> assumption⟩

/-- C9: on a well-formed board with in-range coordinates, `getWinCells`
returns exactly the specification value: the coordinates of every line
among row/column/diagonal/anti-diagonal through `(row, col)` that is fully
filled with the symbol, concatenated in that order with each line's cells
in traversal order, and without deduplicating coordinates shared by
several matching lines. -/
theorem c9_getWinCells_spec (b : Board) (hwf : b.WF) (row col : Int)
    (hr0 : 0 ≤ row) (hr : row < 3) (hc0 : 0 ≤ col) (hc : col < 3) (s : Char) :
    b.getWinCells row col s = .ok (getWinCellsSpec b row col s) := by
  have ec0 : ((0 : Fin 3) : Int) = 0 := rfl
  have ec1 : ((1 : Fin 3) : Int) = 1 := rfl
  have ec2 : ((2 : Fin 3) : Int) = 2 := rfl
  obtain ⟨grid, fl⟩ := b
  obtain ⟨hlen, hrows⟩ := hwf
  simp only at hlen hrows
  obtain ⟨r0, r1, r2, rfl⟩ := List.length_eq_three.mp hlen
  obtain ⟨c00, c01, c02, rfl⟩ := List.length_eq_three.mp (hrows r0 (by simp))
  obtain ⟨c10, c11, c12, rfl⟩ := List.length_eq_three.mp (hrows r1 (by simp))
  obtain ⟨c20, c21, c22, rfl⟩ := List.length_eq_three.mp (hrows r2 (by simp))
  interval_cases row <;> interval_cases col <;>
    simp [Board.getWinCells, getWinCellsSpec, Board.getRowLine, Board.getColLine,
      Board.getDiagLine, Board.getAntiDiagLine, validateIndex, SIZE,
      Bind.bind, Except.bind, pure, Except.pure, List.mapM, List.mapM.loop,
      List.enum, List.enumFrom, undefCell, cellAt, fin3_forall, ec0, ec1, ec2,
      List.all_cons, List.all_nil, Bool.and_eq_true, beq_iff_eq, and_true]

/-- C9 witness: the double-win board, where the move (0,0) for `'x'`
matches both row 0 and the main diagonal; the resulting sequence has the
six cells of both lines, duplicates kept. -/
theorem c9_getWinCells_spec_witness :
    (doubleWinBoard.WF ∧ (0 : Int) ≤ 0 ∧ (0 : Int) < 3) ∧
    doubleWinBoard.getWinCells 0 0 'x' = .ok (getWinCellsSpec doubleWinBoard 0 0 'x') ∧
    (getWinCellsSpec doubleWinBoard 0 0 'x').length = 6 :=
  ⟨⟨by decide, by decide, by decide⟩,
    c9_getWinCells_spec doubleWinBoard (by decide) 0 0 (by decide) (by decide)
      (by decide) (by decide) 'x', by decide⟩
